import Mathlib

/-!
# Verification of the Blaze max-aggregate core and the unscaled-value extractor

Shallow embedding of
`src/native-engine/datafusion-ext-plans/src/agg/max.rs` and
`src/native-engine/datafusion-ext-functions/src/spark_unscaled_value.rs`.

Stateful Rust code (mutation of the per-group aggregation buffer `AggBuf`)
becomes explicit state passing on slot-state types; fallible code returns
`Except String`.  Machine integers are modelled by `Int`/`Nat` (the max
aggregate only compares, never wraps); the one place where overflow matters,
the Rust `as i64` cast of an `i128`, is modelled by explicit reduction
modulo `2 ^ 64`.  IEEE floats are modelled by a carrier with an explicit
`NaN` element whose comparisons are all false, exactly as Rust's `PartialOrd`
on `f32`/`f64` behaves; finite floats are carried by `ℚ`, which preserves
their linear order.
-/

namespace Blaze

/-- Arrow `TimeUnit`, as matched in `max.rs`. -/
inductive TimeUnit
  | second
  | millisecond
  | microsecond
  | nanosecond
deriving DecidableEq

/-- The Arrow physical `DataType`s the code dispatches on: every constructor
named in the `match` arms of `get_partial_updater` / `get_partial_buf_merger`
/ `partial_update_all` in `max.rs`, plus a sample of the remaining Arrow
types (`Float16`, `Binary`, `LargeUtf8`, `List`, `Struct`), which all fall
into the `other =>` error arm. -/
inductive DataType
  | null
  | boolean
  | int8
  | int16
  | int32
  | int64
  | uint8
  | uint16
  | uint32
  | uint64
  | float32
  | float64
  | date32
  | date64
  | timestamp (unit : TimeUnit) (tz : Option String)
  | decimal128 (precision : Nat) (scale : Nat)
  | utf8
  | float16
  | binary
  | largeUtf8
  | listOf
  | structOf
deriving DecidableEq

/-- The spec's list of supported physical types for the max aggregate:
null, boolean, signed/unsigned integers of widths 8/16/32/64, 32/64-bit
floats, 32/64-bit dates, timestamps at the four resolutions, 128-bit
decimal, and text. -/
def DataType.supportedMax : DataType → Bool
  | .null | .boolean
  | .int8 | .int16 | .int32 | .int64
  | .uint8 | .uint16 | .uint32 | .uint64
  | .float32 | .float64
  | .date32 | .date64
  | .timestamp _ _
  | .decimal128 _ _
  | .utf8 => true
  | _ => false

/-- Rendering of a `DataType` for the `unsupported data type` error message
(the Rust code formats the type with `{}`). -/
def DataType.describe : DataType → String
  | .null => "Null"
  | .boolean => "Boolean"
  | .int8 => "Int8"
  | .int16 => "Int16"
  | .int32 => "Int32"
  | .int64 => "Int64"
  | .uint8 => "UInt8"
  | .uint16 => "UInt16"
  | .uint32 => "UInt32"
  | .uint64 => "UInt64"
  | .float32 => "Float32"
  | .float64 => "Float64"
  | .date32 => "Date32"
  | .date64 => "Date64"
  | .timestamp _ _ => "Timestamp"
  | .decimal128 _ _ => "Decimal128"
  | .utf8 => "Utf8"
  | .float16 => "Float16"
  | .binary => "Binary"
  | .largeUtf8 => "LargeUtf8"
  | .listOf => "List"
  | .structOf => "Struct"

/-- Model of a Rust `f32`/`f64` value as the max aggregate observes it:
comparisons only.  `nan` is the class of NaN payloads; every `<`-style
comparison involving it is false, exactly as Rust's `PartialOrd` for
floats.  A finite (or infinite) float value is carried by a rational,
which embeds the finite floats order-preservingly. -/
inductive FloatVal
  | nan
  | fin (q : ℚ)
deriving DecidableEq

/-- Rust `v > w` on `f32`/`f64` (false whenever either side is NaN). -/
def floatGt : FloatVal → FloatVal → Bool
  | .fin a, .fin b => decide (b < a)
  | _, _ => false

/-- Rust `v <= w` restricted to comparable (non-NaN) floats; used only to
state the "equal-or-smaller candidate" claim for float columns. -/
def FloatVal.le : FloatVal → FloatVal → Prop
  | .fin a, .fin b => a ≤ b
  | _, _ => False

/-- Rust `v > w` for a type whose Rust `PartialOrd` is a total order
(integers, booleans, dates, timestamps, decimal values, strings). -/
def linGt [LinearOrder α] (v w : α) : Bool :=
  decide (w < v)

/-- A Rust string value, modelled by its character sequence.  Rust compares
`&str` byte-wise on UTF-8, which coincides with codepoint order, i.e. with
the lexicographic order on the character list. -/
abbrev Str : Type := List Char

/-- One fixed-width slot of an `AggBuf` (modelled from the spec, §4.1:
`agg_buf.rs` is not under `src/`): a validity bit and the slot's raw value.
The value of an invalid slot is unspecified garbage; the model carries it
explicitly so that "the slot was not touched" is literal equality. -/
structure FixedSlot (α : Type) where
  valid : Bool
  value : α
deriving DecidableEq

/-- The native Lean carrier of each physical type's values. -/
@[reducible] def DataType.native : DataType → Type
  | .boolean => Bool
  | .int8 | .int16 | .int32 | .int64 => Int
  | .uint8 | .uint16 | .uint32 | .uint64 => Nat
  | .float32 | .float64 => FloatVal
  | .date32 | .date64 => Int
  | .timestamp _ _ => Int
  | .decimal128 _ _ => Int
  | .utf8 => Str
  | _ => Unit

/-- The `AggBuf` slot state owned by one max accumulator of the given type:
a fixed slot for the primitive-like types, the dynamic slot
(`Option` of an owned string, `None` until the first valid update) for
`Utf8`, and no storage at all for `Null` and for the unsupported types. -/
@[reducible] def DataType.slotType : DataType → Type
  | .null => Unit
  | .utf8 => Option Str
  | .float16 | .binary | .largeUtf8 | .listOf | .structOf => Unit
  | dt => FixedSlot dt.native

/-- `partial_update_prim` from `max.rs`: if the slot is valid, replace its
value by the candidate exactly when the candidate is strictly greater
(`|w| if v > w { v } else { w }`); otherwise seed the slot with the
candidate and mark it valid. -/
def partial_update_prim (gt : α → α → Bool) (s : FixedSlot α) (v : α) : FixedSlot α :=
  if s.valid then
    { s with value := if gt v s.value then v else s.value }
  else
    { valid := true, value := v }

/-- The body of the `fn_fixed!` macro in `get_partial_updater`: read row `i`
of the column; if it is valid, run `partial_update_prim`, else do nothing.
A column is a list of optional native values (`None` = null element);
`List.getD i none` returns row `i`. -/
def fixed_updater (gt : α → α → Bool)
    (s : FixedSlot α) (col : List (Option α)) (i : Nat) : FixedSlot α :=
  match col.getD i none with
  | some v => partial_update_prim gt s v
  | none => s

/-- The dynamic-slot update shared by the `Utf8` arms of
`get_partial_updater` and `get_partial_buf_merger` in `max.rs`:
`if w.as_ref().filter(|w| w.as_ref() >= v).is_none() { *w = Some(v) }` —
keep the buffered string when it exists and is `≥` the candidate,
otherwise store the candidate. -/
def utf8_update (w : Option Str) (v : Str) : Option Str :=
  match w with
  | some w0 => if v ≤ w0 then some w0 else some v
  | none => some v

/-- The `Utf8` arm of `get_partial_updater`. -/
def utf8_updater (s : Option Str) (col : List (Option Str)) (i : Nat) :
    Option Str :=
  match col.getD i none with
  | some v => utf8_update s v
  | none => s

/-- Model of the external `arrow::compute::max` / `max_boolean` /
`max_string` kernels used by `partial_update_all` (their source is the
arrow crate, not this repository; the spec, §4.4, describes them as "the
batch's own maximum using a vectorized reduction"): fold over the column,
keeping the larger of the accumulator and each valid element, `none` when
the column has no valid element.  For float columns the kernel's treatment
of NaN varies across arrow versions; no theorem below relies on the float
instance of this definition.  `max_step` is one step of the reduction:
combine the running maximum (`none` = none seen yet) with one element. -/
def max_step (gt : α → α → Bool) (acc x : Option α) : Option α :=
  match acc, x with
  | none, x => x
  | some m, none => some m
  | some m, some v => some (if gt v m then v else m)

/-- The whole kernel: fold `max_step` over the column. -/
def arrow_max (gt : α → α → Bool) (col : List (Option α)) : Option α :=
  col.foldl (max_step gt) none

/-- The body of the `handle_fixed!` macro in `AggMax::partial_update_all`:
`if let Some(max) = arrow::compute::max(value) { partial_update_prim }`. -/
def handle_fixed (gt : α → α → Bool) (s : FixedSlot α) (col : List (Option α)) :
    FixedSlot α :=
  match arrow_max gt col with
  | some m => partial_update_prim gt s m
  | none => s

/-- The body of the `fn_fixed!` macro in `get_partial_buf_merger` (and of
its spelled-out `Boolean` arm, which is identical): if the second buffer's
slot is valid, update the first buffer with its value; the second buffer is
only read (`is_fixed_valid`, `fixed_value` — reads per the AggBuf contract,
spec §4.1), so it is returned unchanged. -/
def fixed_merger (gt : α → α → Bool) (s1 s2 : FixedSlot α) :
    FixedSlot α × FixedSlot α :=
  (if s2.valid then partial_update_prim gt s1 s2.value else s1, s2)

/-- The `Utf8` arm of `get_partial_buf_merger`: if the second buffer's
dynamic slot holds a string, update the first buffer's slot with it
(same filter logic as the row updater); the second buffer's slot is only
read. -/
def utf8_merger (w v : Option Str) : Option Str × Option Str :=
  match v with
  | some x => (utf8_update w x, v)
  | none => (w, v)

/-- The `Utf8` arm of `AggMax::partial_update_all`: reduce the batch with
`arrow::compute::max_string`; when it yields a maximum, replace the buffered
string exactly when it is strictly smaller (`if w.as_ref() < max`), or seed
an empty slot. -/
def utf8_handle (s : Option Str) (col : List (Option Str)) : Option Str :=
  match arrow_max linGt col with
  | some m =>
    match s with
    | some w => if w < m then some m else some w
    | none => some m
  | none => s

/-- One row-update step on a fixed slot by an optional (possibly null)
value: the common shape of `fixed_updater` (reading a row) and of the
merger (reading the other buffer's slot). -/
def upd_step (gt : α → α → Bool) (s : FixedSlot α) (x : Option α) : FixedSlot α :=
  match x with
  | some v => partial_update_prim gt s v
  | none => s

/-- The observable content of a fixed slot: its value when valid, `none`
when invalid. -/
def slotOpt (s : FixedSlot α) : Option α :=
  if s.valid then some s.value else none

/-- "The slot at this address is invalid / holds no value": validity bit
false for a fixed slot, `None` for the dynamic (`Utf8`) slot, vacuous for
the storage-free `Null` type. -/
def DataType.slotInvalid : (dt : DataType) → dt.slotType → Prop
  | .null => fun _ => True
  | .utf8 => fun s => s = none
  | .float16 | .binary | .largeUtf8 | .listOf | .structOf => fun _ => True
  | .boolean => fun s => s.valid = false
  | .int8 | .int16 | .int32 | .int64 => fun s => s.valid = false
  | .uint8 | .uint16 | .uint32 | .uint64 => fun s => s.valid = false
  | .float32 | .float64 => fun s => s.valid = false
  | .date32 | .date64 => fun s => s.valid = false
  | .timestamp _ _ => fun s => s.valid = false
  | .decimal128 _ _ => fun s => s.valid = false

/-- "The slot currently holds the valid value `v`". -/
def DataType.slotHasValue : (dt : DataType) → dt.slotType → dt.native → Prop
  | .null => fun _ _ => False
  | .utf8 => fun s v => s = some v
  | .float16 | .binary | .largeUtf8 | .listOf | .structOf => fun _ _ => False
  | .boolean => fun s v => s.valid = true ∧ s.value = v
  | .int8 | .int16 | .int32 | .int64 => fun s v => s.valid = true ∧ s.value = v
  | .uint8 | .uint16 | .uint32 | .uint64 => fun s v => s.valid = true ∧ s.value = v
  | .float32 | .float64 => fun s v => s.valid = true ∧ s.value = v
  | .date32 | .date64 => fun s v => s.valid = true ∧ s.value = v
  | .timestamp _ _ => fun s v => s.valid = true ∧ s.value = v
  | .decimal128 _ _ => fun s v => s.valid = true ∧ s.value = v

/-- "Candidate `v` is equal to or smaller than `w`" in each native type's
comparison semantics (Rust `v <= w`); for floats this requires both sides
comparable (non-NaN), and the storage-free types have no values to
compare. -/
def DataType.nativeLe : (dt : DataType) → dt.native → dt.native → Prop
  | .null => fun _ _ => False
  | .utf8 => fun v w => v ≤ w
  | .float16 | .binary | .largeUtf8 | .listOf | .structOf => fun _ _ => False
  | .boolean => fun v w => v ≤ w
  | .int8 | .int16 | .int32 | .int64 => fun v w => v ≤ w
  | .uint8 | .uint16 | .uint32 | .uint64 => fun v w => v ≤ w
  | .float32 | .float64 => fun v w => FloatVal.le v w
  | .date32 | .date64 => fun v w => v ≤ w
  | .timestamp _ _ => fun v w => v ≤ w
  | .decimal128 _ _ => fun v w => v ≤ w

/-- The type of a resolved row updater for physical type `dt`:
(slot state, column, row index) ↦ new slot state. -/
@[reducible] def UpdaterTy (dt : DataType) : Type :=
  dt.slotType → List (Option dt.native) → Nat → dt.slotType

/-- The type of a resolved buffer merger for `dt`: (buf1 slot, buf2 slot) ↦
(new buf1 slot, new buf2 slot). -/
@[reducible] def MergerTy (dt : DataType) : Type :=
  dt.slotType → dt.slotType → dt.slotType × dt.slotType

/-- The error message of the `other =>` arms in `max.rs`. -/
def unsupported_msg (dt : DataType) : String :=
  "unsupported data type in max(): " ++ dt.describe

/-- `get_partial_updater` from `max.rs`: resolve, once per plan, the row
updater for the column's physical type; `Null` columns get a no-op,
unsupported types get the `NotImplemented` error. -/
def get_partial_updater (dt : DataType) : Except String (UpdaterTy dt) :=
  match dt with
  | .null => .ok fun s _ _ => s
  | .boolean => .ok (fixed_updater linGt)
  | .float32 => .ok (fixed_updater floatGt)
  | .float64 => .ok (fixed_updater floatGt)
  | .int8 => .ok (fixed_updater linGt)
  | .int16 => .ok (fixed_updater linGt)
  | .int32 => .ok (fixed_updater linGt)
  | .int64 => .ok (fixed_updater linGt)
  | .uint8 => .ok (fixed_updater linGt)
  | .uint16 => .ok (fixed_updater linGt)
  | .uint32 => .ok (fixed_updater linGt)
  | .uint64 => .ok (fixed_updater linGt)
  | .date32 => .ok (fixed_updater linGt)
  | .date64 => .ok (fixed_updater linGt)
  | .timestamp _ _ => .ok (fixed_updater linGt)
  | .decimal128 _ _ => .ok (fixed_updater linGt)
  | .utf8 => .ok utf8_updater
  | dt => .error (unsupported_msg dt)

/-- `get_partial_buf_merger` from `max.rs`. -/
def get_partial_buf_merger (dt : DataType) : Except String (MergerTy dt) :=
  match dt with
  | .null => .ok fun s1 s2 => (s1, s2)
  | .boolean => .ok (fixed_merger linGt)
  | .float32 => .ok (fixed_merger floatGt)
  | .float64 => .ok (fixed_merger floatGt)
  | .int8 => .ok (fixed_merger linGt)
  | .int16 => .ok (fixed_merger linGt)
  | .int32 => .ok (fixed_merger linGt)
  | .int64 => .ok (fixed_merger linGt)
  | .uint8 => .ok (fixed_merger linGt)
  | .uint16 => .ok (fixed_merger linGt)
  | .uint32 => .ok (fixed_merger linGt)
  | .uint64 => .ok (fixed_merger linGt)
  | .date32 => .ok (fixed_merger linGt)
  | .date64 => .ok (fixed_merger linGt)
  | .timestamp _ _ => .ok (fixed_merger linGt)
  | .decimal128 _ _ => .ok (fixed_merger linGt)
  | .utf8 => .ok utf8_merger
  | dt => .error (unsupported_msg dt)

/-- Modelled from the spec: `ScalarValue::try_from(&DataType)` (external
datafusion code, not in this repository) builds the accumulator's typed
null initial value (`AccumInitialValue`, spec §3); it succeeds for every
physical type modelled here. -/
def scalar_try_from (_dt : DataType) : Except String Unit :=
  .ok ()

/-- The `AggMax` accumulator descriptor: the two function pointers resolved
once by `AggMax::try_new` (the source expression and output type play no
role in the claims). -/
structure AggMax (dt : DataType) where
  updater : UpdaterTy dt
  merger : MergerTy dt

/-- `AggMax::try_new`: build the initial value, then resolve the row
updater and the buffer merger; the first failure aborts construction. -/
def AggMax.try_new (dt : DataType) : Except String (AggMax dt) := do
  let _ ← scalar_try_from dt
  let u ← get_partial_updater dt
  let m ← get_partial_buf_merger dt
  pure ⟨u, m⟩

/-- The `Agg::partial_update` method of `AggMax`: invoke the resolved row
updater. -/
def AggMax.partial_update (a : AggMax dt) : UpdaterTy dt :=
  a.updater

/-- The `Agg::partial_merge` method of `AggMax`: invoke the resolved
buffer merger. -/
def AggMax.partial_merge (a : AggMax dt) : MergerTy dt :=
  a.merger

/-- `AggMax::partial_update_all` from `max.rs`: the whole-batch fast path.
It re-dispatches on the column's data type per call: `Null` is a no-op,
the fixed types reduce the batch with the arrow max kernel and compare at
most once against the buffer, `Utf8` does the same with `max_string` and
the `w < max` replacement, any other type returns the `NotImplemented`
error. -/
def AggMax.partial_update_all :
    (dt : DataType) → dt.slotType → List (Option dt.native) →
      Except String dt.slotType
  | .null, s, _ => .ok s
  | .boolean, s, col => .ok (handle_fixed linGt s col)
  | .float32, s, col => .ok (handle_fixed floatGt s col)
  | .float64, s, col => .ok (handle_fixed floatGt s col)
  | .int8, s, col => .ok (handle_fixed linGt s col)
  | .int16, s, col => .ok (handle_fixed linGt s col)
  | .int32, s, col => .ok (handle_fixed linGt s col)
  | .int64, s, col => .ok (handle_fixed linGt s col)
  | .uint8, s, col => .ok (handle_fixed linGt s col)
  | .uint16, s, col => .ok (handle_fixed linGt s col)
  | .uint32, s, col => .ok (handle_fixed linGt s col)
  | .uint64, s, col => .ok (handle_fixed linGt s col)
  | .date32, s, col => .ok (handle_fixed linGt s col)
  | .date64, s, col => .ok (handle_fixed linGt s col)
  | .timestamp _ _, s, col => .ok (handle_fixed linGt s col)
  | .decimal128 _ _, s, col => .ok (handle_fixed linGt s col)
  | .utf8, s, col => .ok (utf8_handle s col)
  | .float16, _, _ => .error (unsupported_msg .float16)
  | .binary, _, _ => .error (unsupported_msg .binary)
  | .largeUtf8, _, _ => .error (unsupported_msg .largeUtf8)
  | .listOf, _, _ => .error (unsupported_msg .listOf)
  | .structOf, _, _ => .error (unsupported_msg .structOf)

/-- Calling the resolved row updater once per row, for the rows listed in
`order` (an enumeration of row indices), in that order. -/
def update_each_row (f : σ → List (Option γ) → Nat → σ)
    (s : σ) (col : List (Option γ)) (order : List Nat) : σ :=
  order.foldl (fun acc i => f acc col i) s

/-! ## `spark_unscaled_value.rs` -/

/-- Rust `v as i64` applied to an `i128` unscaled decimal value: truncate to
the low 64 bits and reinterpret them in two's complement. -/
def i128_as_i64 (v : Int) : Int :=
  let u := v % 2 ^ 64
  if u < 2 ^ 63 then u else u - 2 ^ 64

/-- The datafusion `ScalarValue`s relevant to `spark_unscaled_value`: the
decimal variant it matches on (an optional 128-bit unscaled value with
precision and scale), the `Int64` variant it produces, and a sample of other
variants, which all fall into the `_ =>` arm. -/
inductive ScalarValue
  | decimal128 (v : Option Int) (precision : Nat) (scale : Nat)
  | int64 (v : Option Int)
  | int32 (v : Option Int)
  | boolean (v : Option Bool)
  | utf8 (v : Option Str)
deriving DecidableEq

/-- Typed arrow arrays, as `spark_unscaled_value` sees them: the
`Decimal128Array` its downcast accepts, the `Int64` array it builds, and a
sample of other array types, on which the downcast `unwrap()` panics. -/
inductive ArrayValue
  | decimal128 (values : List (Option Int)) (precision : Nat) (scale : Nat)
  | int64 (values : List (Option Int))
  | int32 (values : List (Option Int))
  | utf8 (values : List (Option Str))
deriving DecidableEq

/-- datafusion's `ColumnarValue`: a single scalar or a whole column. -/
inductive ColumnarValue
  | scalar (s : ScalarValue)
  | array (a : ArrayValue)
deriving DecidableEq

/-- The observable outcome of calling a Rust function returning
`Result<T, DataFusionError>`: a returned `Ok` value, a returned typed error,
or a panic (an `unwrap()` failure, which unwinds without producing a
`Result` at all). -/
inductive FnResult (α : Type)
  | ok (value : α)
  | err (msg : String)
  | panicked
deriving DecidableEq

/-- `spark_unscaled_value` from `spark_unscaled_value.rs`, translated arm
by arm: a present scalar decimal maps to `Ok(Int64(Some(v as i64)))`; every
other scalar (including a NULL decimal) falls into the `_` arm and maps to
`Ok(Int64(None))`; an array is downcast to `Decimal128Array` with
`.unwrap()` — a panic for any other array type — and mapped element-wise
with null positions preserved.  The function never constructs an `Err`. -/
def spark_unscaled_value : ColumnarValue → FnResult ColumnarValue
  | .scalar (.decimal128 (some v) _ _) =>
    .ok (.scalar (.int64 (some (i128_as_i64 v))))
  | .scalar _ => .ok (.scalar (.int64 none))
  | .array (.decimal128 vs _ _) =>
    .ok (.array (.int64 (vs.map (Option.map i128_as_i64))))
  | .array _ => .panicked

/-- Whether a scalar is the decimal variant accepted by the extractor. -/
def ScalarValue.isDecimal : ScalarValue → Bool
  | .decimal128 _ _ _ => true
  | _ => false

/-- Whether an array is the decimal variant accepted by the extractor. -/
def ArrayValue.isDecimal : ArrayValue → Bool
  | .decimal128 _ _ _ => true
  | _ => false

/-! ## Lemmas: the keep-left max on totally ordered native types -/

theorem keep_max [LinearOrder α] (w v : α) : (if linGt v w then v else w) = max w v := by
  rcases le_or_lt v w with h | h
  · simp [linGt, h.not_lt, max_eq_left h]
  · simp [linGt, h, max_eq_right h.le]

theorem partial_update_prim_linGt [LinearOrder α] (s : FixedSlot α) (v : α) :
    partial_update_prim linGt s v = ⟨true, if s.valid then max s.value v else v⟩ := by
  obtain ⟨sv, sx⟩ := s
  cases sv <;> simp [partial_update_prim, keep_max]

theorem max_step_none_right (gt : α → α → Bool) (s : Option α) :
    max_step gt s none = s := by
  cases s <;> rfl

theorem max_step_comm [LinearOrder α] (x y : Option α) :
    max_step linGt x y = max_step linGt y x := by
  cases x <;> cases y <;> simp [max_step, keep_max, max_comm]

theorem max_step_assoc [LinearOrder α] (x y z : Option α) :
    max_step linGt (max_step linGt x y) z = max_step linGt x (max_step linGt y z) := by
  cases x <;> cases y <;> cases z <;> simp [max_step, keep_max, max_assoc]

theorem upd_step_max_step [LinearOrder α] (s : FixedSlot α) (x y : Option α) :
    upd_step linGt (upd_step linGt s x) y = upd_step linGt s (max_step linGt x y) := by
  obtain ⟨sv, sx⟩ := s
  cases x <;> cases y <;> cases sv <;>
    simp [upd_step, max_step, partial_update_prim_linGt, keep_max, max_assoc]

theorem upd_step_right_comm [LinearOrder α] (s : FixedSlot α) (x y : Option α) :
    upd_step linGt (upd_step linGt s x) y = upd_step linGt (upd_step linGt s y) x := by
  rw [upd_step_max_step, upd_step_max_step, max_step_comm]

theorem foldl_step_bridge (gt : α → α → Bool) (f : β → Option α → β)
    (hfg : ∀ s x y, f (f s x) y = f s (max_step gt x y)) :
    ∀ (col : List (Option α)) (s : β) (acc : Option α),
      col.foldl f (f s acc) = f s (col.foldl (max_step gt) acc)
  | [], _, _ => rfl
  | h :: t, s, acc => by
    simp only [List.foldl_cons]
    rw [hfg, foldl_step_bridge gt f hfg t s (max_step gt acc h)]

theorem handle_fixed_eq_upd_step (gt : α → α → Bool) (s : FixedSlot α)
    (col : List (Option α)) :
    handle_fixed gt s col = upd_step gt s (arrow_max gt col) := by
  unfold handle_fixed upd_step
  cases arrow_max gt col <;> rfl

theorem foldl_upd_eq_handle [LinearOrder α] (s : FixedSlot α) (col : List (Option α)) :
    col.foldl (upd_step linGt) s = handle_fixed linGt s col := by
  have h := foldl_step_bridge linGt (upd_step linGt)
    (fun s x y => upd_step_max_step s x y) col s none
  rw [handle_fixed_eq_upd_step, arrow_max]
  simpa [upd_step] using h

theorem map_getD_range (col : List (Option α)) :
    (List.range col.length).map (fun i => col.getD i none) = col := by
  apply List.ext_getElem
  · simp
  · intro i h1 h2
    simp [List.getD_eq_getElem?_getD, List.getElem?_eq_getElem h2]

theorem update_each_row_eq_foldl (f : σ → Option γ → σ)
    (g : σ → List (Option γ) → Nat → σ)
    (hg : ∀ s col i, g s col i = f s (col.getD i none))
    (s : σ) (col : List (Option γ)) (order : List Nat) :
    update_each_row g s col order = (order.map fun i => col.getD i none).foldl f s := by
  rw [update_each_row, List.foldl_map]
  have hfun : (fun acc i => g acc col i) = fun x y => f x (col.getD y none) := by
    funext acc i
    exact hg acc col i
  rw [hfun]

theorem fixed_updater_eq_upd_step (gt : α → α → Bool) (s : FixedSlot α)
    (col : List (Option α)) (i : Nat) :
    fixed_updater gt s col i = upd_step gt s (col.getD i none) := rfl

theorem update_each_row_fixed [LinearOrder α] (s : FixedSlot α)
    (col : List (Option α)) (order : List Nat)
    (hp : order.Perm (List.range col.length)) :
    update_each_row (fixed_updater linGt) s col order = handle_fixed linGt s col := by
  rw [update_each_row_eq_foldl (upd_step linGt) (fixed_updater linGt)
    (fixed_updater_eq_upd_step linGt) s col order]
  rw [(hp.map fun i => col.getD i none).foldl_eq'
    (fun x _ y _ z => upd_step_right_comm z x y) s]
  rw [map_getD_range, foldl_upd_eq_handle]

/-! ## Lemmas: the `Utf8` dynamic-slot operations are the same max fold -/

theorem utf8_update_eq_max_step (w : Option Str) (v : Str) :
    utf8_update w v = max_step linGt w (some v) := by
  cases w with
  | none => rfl
  | some w0 =>
    simp only [utf8_update, max_step, keep_max]
    rcases le_or_lt v w0 with h | h
    · simp [h, max_eq_left h]
    · simp [h.not_le, max_eq_right h.le]

theorem utf8_updater_eq_max_step (s : Option Str) (col : List (Option Str)) (i : Nat) :
    utf8_updater s col i = max_step linGt s (col.getD i none) := by
  unfold utf8_updater
  cases h : col.getD i none <;>
    simp [h, utf8_update_eq_max_step, max_step_none_right]

theorem utf8_handle_eq_max_step (s : Option Str) (col : List (Option Str)) :
    utf8_handle s col = max_step linGt s (arrow_max linGt col) := by
  unfold utf8_handle
  cases h : arrow_max linGt col with
  | none => rw [max_step_none_right]
  | some m =>
    cases s with
    | none => rfl
    | some w =>
      simp only [max_step, keep_max]
      rcases le_or_lt m w with hmw | hmw
      · simp [hmw.not_lt, max_eq_left hmw]
      · simp [hmw, max_eq_right hmw.le]

theorem update_each_row_utf8 (s : Option Str) (col : List (Option Str))
    (order : List Nat) (hp : order.Perm (List.range col.length)) :
    update_each_row utf8_updater s col order = utf8_handle s col := by
  rw [update_each_row_eq_foldl (max_step linGt) utf8_updater
    utf8_updater_eq_max_step s col order]
  rw [(hp.map fun i => col.getD i none).foldl_eq'
    (fun x _ y _ z => by rw [max_step_assoc, max_step_assoc, max_step_comm x y]) s]
  rw [map_getD_range, utf8_handle_eq_max_step, arrow_max]
  have h := foldl_step_bridge linGt (max_step linGt)
    (fun s x y => max_step_assoc s x y) col s none
  rwa [max_step_none_right] at h

theorem update_each_row_noop (s : σ) (col : List (Option γ)) (order : List Nat) :
    update_each_row (fun (acc : σ) (_ : List (Option γ)) (_ : Nat) => acc)
      s col order = s := by
  induction order with
  | nil => rfl
  | cons a t ih => simp [update_each_row, List.foldl_cons]

/-! ## Lemmas: mergers as `upd_step` on the observable slot content -/

theorem fixed_merger_fst (gt : α → α → Bool) (a b : FixedSlot α) :
    (fixed_merger gt a b).1 = upd_step gt a (slotOpt b) := by
  cases hb : b.valid <;> simp [fixed_merger, slotOpt, hb, upd_step]

theorem slotOpt_upd_step [LinearOrder α] (b : FixedSlot α) (x : Option α) :
    slotOpt (upd_step linGt b x) = max_step linGt (slotOpt b) x := by
  obtain ⟨bv, bx⟩ := b
  cases x <;> cases bv <;>
    simp [upd_step, slotOpt, max_step, partial_update_prim_linGt, keep_max]

theorem utf8_merger_fst (w v : Option Str) :
    (utf8_merger w v).1 = max_step linGt w v := by
  cases v <;> simp [utf8_merger, utf8_update_eq_max_step, max_step_none_right]

theorem arrow_max_all_none (gt : α → α → Bool) :
    ∀ (col : List (Option α)), (∀ x ∈ col, x = none) → arrow_max gt col = none
  | [], _ => rfl
  | h :: t, hall => by
    have hh : h = none := hall h (List.mem_cons_self h t)
    have ht := arrow_max_all_none gt t fun x hx => hall x (List.mem_cons_of_mem h hx)
    simpa [arrow_max, List.foldl_cons, hh, max_step] using ht

/-! ## The claims -/

/-- C2: `AggMax::try_new` succeeds for exactly the listed physical types —
null, boolean, signed and unsigned integers of widths 8/16/32/64, 32/64-bit
floats, 32/64-bit dates, timestamps at second/millisecond/microsecond/
nanosecond resolution, 128-bit decimal, and text — and for every other
physical type returns the explicit unsupported-type error.  The error is
produced by `try_new` itself, which receives no row data, hence before any
row is processed. -/
theorem max_try_new_exactly_supported (dt : DataType) :
    (AggMax.try_new dt).isOk = dt.supportedMax ∧
      (dt.supportedMax = false →
        AggMax.try_new dt = .error (unsupported_msg dt)) := by
  cases dt <;> first
    | exact ⟨rfl, fun h => Bool.noConfusion h⟩
    | exact ⟨rfl, fun _ => rfl⟩

/-- Witness for C2: construction succeeds on `Int32` and fails on `Binary`
with the explicit error. -/
theorem max_try_new_exactly_supported_witness :
    (AggMax.try_new .int32).isOk = true ∧
      AggMax.try_new .binary = .error (unsupported_msg .binary) :=
  ⟨(max_try_new_exactly_supported .int32).1,
   (max_try_new_exactly_supported .binary).2 rfl⟩

/-- C3: for every supported type, merging with a buffer whose slot is
invalid (validity bit false for a fixed slot, `None` for the dynamic slot)
leaves the first buffer's slot state — validity bit and raw value —
completely unchanged. -/
theorem max_partial_merge_invalid_noop (dt : DataType)
    (hs : dt.supportedMax = true) (m : MergerTy dt)
    (hm : get_partial_buf_merger dt = .ok m)
    (a b : dt.slotType) (hb : dt.slotInvalid b) :
    (m a b).1 = a := by
  cases dt <;> first
    | exact Bool.noConfusion hs
    | (injection hm with h; subst h; rfl)
    | (injection hm with h; subst h
       simp only [DataType.slotInvalid] at hb; subst hb; rfl)
    | (injection hm with h; subst h
       simp only [DataType.slotInvalid] at hb; simp [fixed_merger, hb])

/-- Witness for C3: an `Int64` merge with an invalid slot is a no-op. -/
theorem max_partial_merge_invalid_noop_witness :
    (fixed_merger linGt (⟨true, (5 : Int)⟩ : FixedSlot Int) ⟨false, 0⟩).1
      = ⟨true, 5⟩ :=
  max_partial_merge_invalid_noop .int64 rfl (fixed_merger linGt) rfl
    ⟨true, 5⟩ ⟨false, 0⟩ rfl

/-- C5: for every supported type, a null input element never changes the
buffer's slot — `partial_update` at a row whose value is null leaves the
whole slot state (hence its validity bit and value) unchanged, and
`partial_update_all` on a batch of only nulls returns the slot unchanged,
so a previously invalid slot stays invalid. -/
theorem max_null_input_never_changes_slot (dt : DataType)
    (hs : dt.supportedMax = true) (f : UpdaterTy dt)
    (hf : get_partial_updater dt = .ok f) :
    (∀ (s : dt.slotType) (col : List (Option dt.native)) (i : Nat),
        col.getD i none = none → f s col i = s) ∧
    (∀ (s : dt.slotType) (col : List (Option dt.native)),
        (∀ x ∈ col, x = none) →
        AggMax.partial_update_all dt s col = .ok s) := by
  cases dt <;> first
    | exact Bool.noConfusion hs
    | (injection hf with h; subst h
       exact ⟨fun s col i _ => rfl, fun s col _ => rfl⟩)
    | (injection hf with h; subst h
       refine ⟨fun s col i hi => ?_, fun s col hcol => ?_⟩
       · rw [fixed_updater_eq_upd_step, hi]; rfl
       · show Except.ok (handle_fixed _ s col) = Except.ok s
         rw [handle_fixed_eq_upd_step, arrow_max_all_none _ col hcol]; rfl)
    | (injection hf with h; subst h
       refine ⟨fun s col i hi => ?_, fun s col hcol => ?_⟩
       · rw [utf8_updater_eq_max_step, hi, max_step_none_right]
       · show Except.ok (utf8_handle s col) = Except.ok s
         rw [utf8_handle_eq_max_step, arrow_max_all_none _ col hcol,
           max_step_none_right])

/-- Witness for C5: a null `Int32` row leaves a valid slot intact, and an
all-null `Int32` batch leaves an invalid slot invalid. -/
theorem max_null_input_never_changes_slot_witness :
    fixed_updater linGt (⟨true, (7 : Int)⟩ : FixedSlot Int) [none] 0 = ⟨true, 7⟩ ∧
    AggMax.partial_update_all .int32 ⟨false, 0⟩ [none, none] = .ok ⟨false, 0⟩ :=
  ⟨(max_null_input_never_changes_slot .int32 rfl (fixed_updater linGt) rfl).1
      ⟨true, 7⟩ [none] 0 rfl,
   (max_null_input_never_changes_slot .int32 rfl (fixed_updater linGt) rfl).2
      ⟨false, 0⟩ [none, none] (by simp)⟩

/-- C10: for every supported type, `partial_merge(buf1, buf2, addr)` never
modifies `buf2`: though the Rust function receives `&mut` access to both
buffers, its second buffer's slot state after the call is exactly what it
was before (the merger only reads `buf2` via `is_fixed_valid` /
`fixed_value` / `AggDynStr::value`). -/
theorem max_partial_merge_preserves_buf2 (dt : DataType)
    (hs : dt.supportedMax = true) (m : MergerTy dt)
    (hm : get_partial_buf_merger dt = .ok m) (a b : dt.slotType) :
    (m a b).2 = b := by
  cases dt <;> first
    | exact Bool.noConfusion hs
    | (injection hm with h; subst h; rfl)
    | (injection hm with h; subst h; cases b <;> rfl)

/-- Witness for C10: a `Utf8` merge returns the second buffer's slot
untouched. -/
theorem max_partial_merge_preserves_buf2_witness :
    (utf8_merger none (some ['a'])).2 = some ['a'] :=
  max_partial_merge_preserves_buf2 .utf8 rfl utf8_merger rfl none (some ['a'])

/-- Counterexample to C1 as stated: for the supported type `Float32`, whose
resolved row updater compares with Rust float `>` (false on NaN), applying
`partial_update` once per row of the batch `[NaN, 1.0]` gives a different
final slot state for the two row orders — `NaN` buffered for order 0,1 and
`1.0` buffered for order 1,0.  No single `partial_update_all` result can
therefore equal the per-row result "in any order of rows", so the claim is
false on float batches containing NaN. -/
theorem max_rowwise_update_order_dependent :
    get_partial_updater .float32 = .ok (fixed_updater floatGt) ∧
    update_each_row (fixed_updater floatGt) (⟨false, .fin 0⟩ : FixedSlot FloatVal)
      [some .nan, some (.fin 1)] [0, 1] = ⟨true, .nan⟩ ∧
    update_each_row (fixed_updater floatGt) (⟨false, .fin 0⟩ : FixedSlot FloatVal)
      [some .nan, some (.fin 1)] [1, 0] = ⟨true, .fin 1⟩ ∧
    (⟨true, .nan⟩ : FixedSlot FloatVal) ≠ ⟨true, .fin 1⟩ :=
  ⟨rfl, by decide, by decide, by decide⟩

/-- C1 (amended): for every supported physical type except `Float32` and
`Float64` — whose Rust comparison is not total in the presence of NaN —
`partial_update_all` on a batch of length `n` produces exactly the same
slot state as calling the resolved `partial_update` once per row, for all
`n` rows, in any order of the rows. -/
theorem max_update_all_eq_rowwise_nonfloat (dt : DataType)
    (hs : dt.supportedMax = true) (h32 : dt ≠ .float32) (h64 : dt ≠ .float64)
    (f : UpdaterTy dt) (hf : get_partial_updater dt = .ok f)
    (s : dt.slotType) (col : List (Option dt.native)) (order : List Nat)
    (hp : order.Perm (List.range col.length)) :
    AggMax.partial_update_all dt s col = .ok (update_each_row f s col order) := by
  cases dt <;> first
    | exact absurd rfl h32
    | exact absurd rfl h64
    | exact Bool.noConfusion hs
    | (injection hf with h; subst h
       exact congrArg Except.ok (update_each_row_noop s col order).symm)
    | (injection hf with h; subst h
       exact congrArg Except.ok (update_each_row_fixed s col order hp).symm)
    | (injection hf with h; subst h
       exact congrArg Except.ok (update_each_row_utf8 s col order hp).symm)

/-- Witness for C1 (amended): an `Int64` batch processed whole equals the
per-row path taken in the order 2,0,1. -/
theorem max_update_all_eq_rowwise_nonfloat_witness :
    AggMax.partial_update_all .int64 (⟨false, 0⟩ : FixedSlot Int)
        [some 3, none, some 7]
      = .ok (update_each_row (fixed_updater linGt) ⟨false, 0⟩
        [some 3, none, some 7] [2, 0, 1]) :=
  max_update_all_eq_rowwise_nonfloat .int64 rfl (by decide) (by decide)
    (fixed_updater linGt) rfl ⟨false, 0⟩ [some 3, none, some 7] [2, 0, 1]
    (by decide)

/-- Counterexample to C4 as stated: for the supported type `Float32`,
chained merging is not order-independent.  Starting from an invalid slot
`A` and merging in the partial buffers `B = (valid, NaN)` and
`C = (valid, 1.0)` in the two orders gives different results — `NaN`
buffered for A·B·C and `1.0` buffered for A·C·B — because float `>` is
false on every NaN comparison. -/
theorem max_partial_merge_order_dependent_float :
    get_partial_buf_merger .float32 = .ok (fixed_merger floatGt) ∧
    (fixed_merger floatGt
        (fixed_merger floatGt (⟨false, .fin 0⟩ : FixedSlot FloatVal)
          ⟨true, .nan⟩).1 ⟨true, .fin 1⟩).1 = ⟨true, .nan⟩ ∧
    (fixed_merger floatGt
        (fixed_merger floatGt (⟨false, .fin 0⟩ : FixedSlot FloatVal)
          ⟨true, .fin 1⟩).1 ⟨true, .nan⟩).1 = ⟨true, .fin 1⟩ ∧
    (⟨true, .nan⟩ : FixedSlot FloatVal) ≠ ⟨true, .fin 1⟩ :=
  ⟨rfl, by decide, by decide, by decide⟩

/-- C4 (amended): for every supported type except `Float32`/`Float64`
(whose NaN comparisons defeat both laws), chained `partial_merge` is
associative — merging A with B then with C equals merging A with the merge
of B into C — and order-independent, and merging twice with an
invalid-slot buffer is the same as merging with it once (idempotence). -/
theorem max_partial_merge_assoc_comm_nonfloat (dt : DataType)
    (hs : dt.supportedMax = true) (h32 : dt ≠ .float32) (h64 : dt ≠ .float64)
    (m : MergerTy dt) (hm : get_partial_buf_merger dt = .ok m)
    (a b c : dt.slotType) :
    (m (m a b).1 c).1 = (m a (m b c).1).1 ∧
    (m (m a b).1 c).1 = (m (m a c).1 b).1 ∧
    (dt.slotInvalid b → (m (m a b).1 b).1 = (m a b).1) := by
  cases dt <;> first
    | exact absurd rfl h32
    | exact absurd rfl h64
    | exact Bool.noConfusion hs
    | (injection hm with h; subst h
       exact ⟨rfl, rfl, fun _ => rfl⟩)
    | (injection hm with h; subst h
       refine ⟨?_, ?_, fun hb => ?_⟩
       · simp only [fixed_merger_fst, slotOpt_upd_step, upd_step_max_step]
       · simp only [fixed_merger_fst, upd_step_max_step]
         rw [max_step_comm]
       · simp only [DataType.slotInvalid] at hb
         simp [fixed_merger_fst, slotOpt, hb, upd_step])
    | (injection hm with h; subst h
       refine ⟨?_, ?_, fun hb => ?_⟩
       · simp only [utf8_merger_fst, max_step_assoc]
       · simp only [utf8_merger_fst]
         rw [max_step_assoc, max_step_assoc, max_step_comm b c]
       · simp only [DataType.slotInvalid] at hb
         subst hb
         simp [utf8_merger_fst, max_step_none_right])

/-- Witness for C4 (amended): associativity of chained `Int64` merges at
concrete slots. -/
theorem max_partial_merge_assoc_comm_nonfloat_witness :
    (fixed_merger linGt
        (fixed_merger linGt (⟨true, (1 : Int)⟩ : FixedSlot Int) ⟨true, 5⟩).1
        ⟨true, 3⟩).1
      = (fixed_merger linGt ⟨true, 1⟩
          (fixed_merger linGt ⟨true, 5⟩ ⟨true, 3⟩).1).1 :=
  (max_partial_merge_assoc_comm_nonfloat .int64 rfl (by decide) (by decide)
    (fixed_merger linGt) rfl ⟨true, 1⟩ ⟨true, 5⟩ ⟨true, 3⟩).1

/-- C6: for every supported type, an update whose candidate value is
comparable and equal to or smaller than the currently buffered valid value
leaves the whole slot state unchanged (on equality the existing value is
kept); and for text concretely: the resolved `Utf8` updater applied with
"b" then "a" leaves the buffered value "b", while the first valid update
of an empty slot with "a" leaves the buffered value "a" and the slot
holding a value. -/
theorem max_no_update_on_le_candidate :
    (∀ (dt : DataType), dt.supportedMax = true →
      ∀ (f : UpdaterTy dt), get_partial_updater dt = .ok f →
      ∀ (s : dt.slotType) (w : dt.native) (col : List (Option dt.native))
        (i : Nat) (v : dt.native),
        dt.slotHasValue s w → col.getD i none = some v → dt.nativeLe v w →
        f s col i = s) ∧
    get_partial_updater .utf8 = .ok utf8_updater ∧
    utf8_updater (utf8_updater none [some ['b'], some ['a']] 0)
      [some ['b'], some ['a']] 1 = some ['b'] ∧
    utf8_updater none [some ['a']] 0 = some ['a'] := by
  refine ⟨fun dt hs f hf s w col i v hsv hi hle => ?_, rfl, by decide, by decide⟩
  cases dt <;> first
    | exact Bool.noConfusion hs
    | exact (show False from hsv).elim
    | (injection hf with h; subst h
       simp only [DataType.slotHasValue] at hsv
       simp only [DataType.nativeLe] at hle
       obtain ⟨hv, hw⟩ := hsv
       obtain ⟨sv, sx⟩ := s
       cases hv; cases hw
       rw [fixed_updater_eq_upd_step, hi]
       simp [upd_step, partial_update_prim_linGt, max_eq_left hle])
    | (injection hf with h; subst h
       simp only [DataType.slotHasValue] at hsv
       simp only [DataType.nativeLe] at hle
       obtain ⟨hv, hw⟩ := hsv
       obtain ⟨sv, sx⟩ := s
       cases hv; cases hw
       cases v with
       | nan => cases sx <;> exact hle.elim
       | fin a =>
         cases sx with
         | nan => exact hle.elim
         | fin b =>
           have hab : a ≤ b := hle
           rw [fixed_updater_eq_upd_step, hi]
           simp [upd_step, partial_update_prim, floatGt, hab.not_lt])
    | (injection hf with h; subst h
       simp only [DataType.slotHasValue] at hsv
       simp only [DataType.nativeLe] at hle
       subst hsv
       rw [utf8_updater_eq_max_step, hi]
       simp [max_step, keep_max, max_eq_left hle])

/-- Witness for C6: an `Int64` slot holding 9 is untouched by candidate 4,
and the concrete text sequences hold. -/
theorem max_no_update_on_le_candidate_witness :
    fixed_updater linGt (⟨true, (9 : Int)⟩ : FixedSlot Int) [some 4] 0
        = ⟨true, 9⟩ ∧
    utf8_updater (utf8_updater none [some ['b'], some ['a']] 0)
        [some ['b'], some ['a']] 1 = some ['b'] :=
  ⟨max_no_update_on_le_candidate.1 .int64 rfl (fixed_updater linGt) rfl
      ⟨true, 9⟩ 9 [some 4] 0 4 ⟨rfl, rfl⟩ rfl (show (4 : Int) ≤ 9 by norm_num),
   max_no_update_on_le_candidate.2.2.1⟩

/-- C7: `spark_unscaled_value` preserves null positions exactly and treats
a whole column exactly as the scalar rule applied element by element: the
scalar path maps a decimal to `Option.map i128_as_i64` of its value, the
array path maps the same function over every element, and the `i`-th output
element equals the scalar rule on the `i`-th input element; concretely, the
scalar `(123, precision 3, scale 2)` maps to `Some 123`, and the array
`[1234567890987654321, 9876543210, 135792468109, null, 67898]` with
precision 10, scale 8 maps element-for-element to itself. -/
theorem unscaled_value_elementwise :
    (∀ (x : Option Int) (p sc : Nat),
      spark_unscaled_value (.scalar (.decimal128 x p sc))
        = .ok (.scalar (.int64 (x.map i128_as_i64)))) ∧
    (∀ (vs : List (Option Int)) (p sc : Nat),
      spark_unscaled_value (.array (.decimal128 vs p sc))
        = .ok (.array (.int64 (vs.map (Option.map i128_as_i64))))) ∧
    (∀ (vs : List (Option Int)) (i : Nat),
      (vs.map (Option.map i128_as_i64)).getD i none
        = Option.map i128_as_i64 (vs.getD i none)) ∧
    spark_unscaled_value (.scalar (.decimal128 (some 123) 3 2))
      = .ok (.scalar (.int64 (some 123))) ∧
    spark_unscaled_value (.array (.decimal128
        [some 1234567890987654321, some 9876543210, some 135792468109,
          none, some 67898] 10 8))
      = .ok (.array (.int64
        [some 1234567890987654321, some 9876543210, some 135792468109,
          none, some 67898])) := by
  refine ⟨fun x p sc => ?_, fun vs p sc => rfl, fun vs i => ?_, ?_, ?_⟩
  · cases x <;> rfl
  · cases h : vs[i]? <;>
      simp [List.getD_eq_getElem?_getD, List.getElem?_map, h]
  · decide
  · decide

/-- C8: for every present 128-bit unscaled decimal value `v`, the output is
`v` truncated to 64 bits and read in two's complement — it is congruent to
`v` modulo `2 ^ 64` and lies in `[-2 ^ 63, 2 ^ 63)` — independent of the
decimal's precision and scale, and identically on the scalar and array
paths. -/
theorem unscaled_value_truncation (v : Int) (p sc p2 sc2 : Nat) :
    spark_unscaled_value (.scalar (.decimal128 (some v) p sc))
      = .ok (.scalar (.int64 (some (i128_as_i64 v)))) ∧
    spark_unscaled_value (.scalar (.decimal128 (some v) p sc))
      = spark_unscaled_value (.scalar (.decimal128 (some v) p2 sc2)) ∧
    (∀ (vs : List (Option Int)),
      spark_unscaled_value (.array (.decimal128 vs p sc))
        = .ok (.array (.int64 (vs.map (Option.map i128_as_i64))))) ∧
    i128_as_i64 v % 2 ^ 64 = v % 2 ^ 64 ∧
    -(2 ^ 63) ≤ i128_as_i64 v ∧ i128_as_i64 v < 2 ^ 63 := by
  have hp : (0 : Int) < 2 ^ 64 := by norm_num
  have h0 : 0 ≤ v % 2 ^ 64 := Int.emod_nonneg v (by norm_num)
  have h1 : v % 2 ^ 64 < 2 ^ 64 := Int.emod_lt_of_pos v hp
  have h64 : (2 : Int) ^ 64 = 18446744073709551616 := by norm_num
  have h63 : (2 : Int) ^ 63 = 9223372036854775808 := by norm_num
  refine ⟨rfl, rfl, fun vs => rfl, ?_, ?_, ?_⟩ <;>
    rw [i128_as_i64] <;>
    split <;>
    rename_i h
  · exact Int.emod_emod_of_dvd v dvd_rfl
  · rw [Int.emod_sub_cancel]
    exact Int.emod_emod_of_dvd v dvd_rfl
  · omega
  · omega
  · omega
  · omega

/-- Counterexample to C9 as stated: a non-decimal input does not produce a
typed failure result on either path.  A non-decimal scalar (`Int32 5`)
returns success with a silently defaulted `Int64 NULL`, and a non-decimal
array (`Int32[5]`) panics on the failed `Decimal128Array` downcast
`unwrap()` — neither is an `Err` value. -/
theorem unscaled_value_no_typed_error :
    spark_unscaled_value (.scalar (.int32 (some 5)))
      = .ok (.scalar (.int64 none)) ∧
    spark_unscaled_value (.array (.int32 [some 5])) = .panicked :=
  ⟨rfl, rfl⟩

/-- C9 (amended): for every input whose physical type is not the supported
fixed-precision decimal, `spark_unscaled_value` returns `Ok` with a
defaulted `Int64 NULL` on the scalar path — no error is surfaced — and
panics on the downcast `unwrap()` on the array path — an unchecked crash,
not a typed failure. -/
theorem unscaled_value_nondecimal_behavior (s : ScalarValue)
    (hs : s.isDecimal = false) (a : ArrayValue) (ha : a.isDecimal = false) :
    spark_unscaled_value (.scalar s) = .ok (.scalar (.int64 none)) ∧
    spark_unscaled_value (.array a) = .panicked := by
  constructor
  · cases s <;> first | rfl | exact Bool.noConfusion hs
  · cases a <;> first | rfl | exact Bool.noConfusion ha

/-- Witness for C9 (amended): a boolean scalar defaults to `Int64 NULL`;
a `Utf8` array panics. -/
theorem unscaled_value_nondecimal_behavior_witness :
    spark_unscaled_value (.scalar (.boolean (some true)))
      = .ok (.scalar (.int64 none)) ∧
    spark_unscaled_value (.array (.utf8 [some ['x']])) = .panicked :=
  unscaled_value_nondecimal_behavior (.boolean (some true)) rfl
    (.utf8 [some ['x']]) rfl

end Blaze
